import Mathlib

/-!
Verification development for the dataset upload backend
(src/backend/main.py and src/backend/diagnostics.py).

The database is modelled as explicit state: association lists for the
user dataset tables, for the dataset_registry metadata table, and for
the datasets_meta table referenced by the POST delete endpoint (both
metadata tables are provisioned outside this code base and are assumed
to exist).  Each request handler becomes a pure function from state to
state; a psycopg2 transaction is modelled by computing the candidate
state and installing it only on commit, so an exception followed by
rollback simply leaves the caller's state untouched, exactly as the
single-connection, single-commit handlers in the source behave.

PostgreSQL COPY FROM in FORMAT CSV (delimiter comma, QUOTE and ESCAPE
both the double-quote character, HEADER skipping the first record) is
modelled character by character.  The download handler is modelled as
always failing: it hands COPY ... TO STDOUT to the driver's plain
execute call, which the driver refuses for an existing table and the
server refuses with an undefined-relation error for a missing one, so
no download ever produces a response body.  Simplifications, stated
once here: line
endings are modelled as LF only, and a bare carriage return outside a
quoted section is a load error, matching the server's strictness for
LF-terminated input; the legacy backslash-dot end-of-data marker and
the 63-byte identifier truncation are not modelled; SQL NULL and the
empty string are identified, which is invisible at the level of CSV
field values exchanged by the endpoints; timestamps (uploaded_at,
created_at) and the surrogate id column are not modelled, so the
registry listing order is not specified.  Python's str.lower and
str.isidentifier are modelled on the ASCII fragment; Python's
isidentifier additionally accepts some non-ASCII letters, which no
input in this development uses.
-/

/-- Abbreviation: the character list of a string literal. -/
def toL (s : String) : List Char := s.data

/-- Characters left unchanged by the substitution in safe_table_name,
    whose regex class is lowercase a to z, digits and underscore
    (codes 97-122, 48-57 and 95). -/
def allowedCh (c : Char) : Bool :=
  (97 ≤ c.toNat && c.toNat ≤ 122) || (48 ≤ c.toNat && c.toNat ≤ 57) || c.toNat == 95

/-- ASCII lowercasing of one character, as Python str.lower acts on
    the ASCII range (codes 65-90 map to 97-122). -/
def lowerCh (c : Char) : Char :=
  if 65 ≤ c.toNat ∧ c.toNat ≤ 90 then Char.ofNat (c.toNat + 32) else c

/-- Python str.replace of every occurrence of ".csv" by the empty
    string: leftmost-first, non-overlapping, scanning resumes after a
    removed occurrence. -/
def stripCsvOcc : List Char → List Char
  | '.' :: 'c' :: 's' :: 'v' :: rest => stripCsvOcc rest
  | c :: rest => c :: stripCsvOcc rest
  | [] => []

/-- The regex substitution in safe_table_name: every maximal run of
    characters outside the allowed class becomes a single underscore.
    The flag records whether the previous character was part of such a
    run (so the run has already emitted its underscore). -/
def collapseRuns : Bool → List Char → List Char
  | _, [] => []
  | inRun, c :: rest =>
    if allowedCh c then c :: collapseRuns false rest
    else if inRun then collapseRuns true rest
    else '_' :: collapseRuns true rest

/-- The body of safe_table_name before the fixed prefix: lowercase,
    drop ".csv" occurrences, collapse disallowed runs to underscores. -/
def sanitizeName (l : List Char) : List Char :=
  collapseRuns false (stripCsvOcc (l.map lowerCh))

/-- safe_table_name from src/backend/main.py: lowercase the hint,
    remove ".csv", replace runs outside the allowed class by one
    underscore, and prepend the fixed prefix. -/
def safe_table_name (s : String) : String :=
  ⟨toL "data_" ++ sanitizeName s.data⟩

/-- First character of the strict identifier grammar of the spec:
    an ASCII letter or underscore. -/
def identStartCh (c : Char) : Bool :=
  (65 ≤ c.toNat && c.toNat ≤ 90) || (97 ≤ c.toNat && c.toNat ≤ 122) || c.toNat == 95

/-- Continuation character of the strict identifier grammar: a letter,
    digit or underscore. -/
def identCh (c : Char) : Bool :=
  identStartCh c || (48 ≤ c.toNat && c.toNat ≤ 57)

/-- The strict identifier grammar of the spec: nonempty, only letters,
    digits and underscore, not starting with a digit. -/
def isStrictIdent : List Char → Bool
  | [] => false
  | c :: t => identStartCh c && t.all identCh

/-- Python str.isidentifier, modelled on the ASCII fragment (Python
    additionally accepts some non-ASCII letters, not modelled; no
    input in this development uses them). -/
def pyIsIdentifier : List Char → Bool
  | [] => false
  | c :: t => identStartCh c && t.all identCh

/-- Scanner state of the COPY CSV record reader: outside any quoted
    section, inside one, or just after a quote character seen inside
    one (which either doubles to a literal quote or closes the
    section). -/
inductive QS : Type
  | plain : QS
  | quoted : QS
  | afterQ : QS
deriving DecidableEq

/-- One COPY CSV record: consume characters until an unquoted line
    feed or the end of input, accumulating the current field and the
    finished fields; returns the record and the unconsumed rest, or
    none for an unterminated quoted section or a bare carriage return
    in unquoted position. -/
def csvRecAux : List Char → QS → List Char → List (List Char) →
    Option (List (List Char) × List Char)
  | [], QS.quoted, _, _ => none
  | [], _, f, fs => some (fs ++ [f], [])
  | c :: rest, QS.plain, f, fs =>
    if c = '"' then csvRecAux rest QS.quoted f fs
    else if c = ',' then csvRecAux rest QS.plain [] (fs ++ [f])
    else if c = '\n' then some (fs ++ [f], rest)
    else if c = '\r' then none
    else csvRecAux rest QS.plain (f ++ [c]) fs
  | c :: rest, QS.quoted, f, fs =>
    if c = '"' then csvRecAux rest QS.afterQ f fs
    else csvRecAux rest QS.quoted (f ++ [c]) fs
  | c :: rest, QS.afterQ, f, fs =>
    if c = '"' then csvRecAux rest QS.quoted (f ++ ['"']) fs
    else if c = ',' then csvRecAux rest QS.plain [] (fs ++ [f])
    else if c = '\n' then some (fs ++ [f], rest)
    else if c = '\r' then none
    else csvRecAux rest QS.plain (f ++ [c]) fs

/-- Read CSV records until the input is exhausted.  The fuel only
    bounds the number of records; since every record consumes at least
    one character, fuel equal to the input length always suffices (see
    parseRecordsFuel_fuel_free below). -/
def parseRecordsFuel : Nat → List Char → Option (List (List (List Char)))
  | _, [] => some []
  | 0, _ :: _ => none
  | fuel + 1, c :: t =>
    match csvRecAux (c :: t) QS.plain [] [] with
    | none => none
    | some (r, rest) => (parseRecordsFuel fuel rest).map (r :: ·)

/-- Parse a whole CSV document into its records. -/
def parseRecords (l : List Char) : Option (List (List (List Char))) :=
  parseRecordsFuel l.length l

/-- One row of the dataset_registry table: original_filename and
    row_count keyed by table_name (uploaded_at is not modelled). -/
structure RegEntry : Type where
  original_filename : String
  row_count : Nat
deriving DecidableEq

/-- The storage state: the dataset tables (each a list of rows of five
    field values), the dataset_registry rows, and the datasets_meta
    rows (only their keys matter here). -/
structure DbState : Type where
  tables : List (String × List (List (List Char)))
  registry : List (String × RegEntry)
  meta : List String
deriving DecidableEq

/-- The state with no dataset tables and empty metadata tables. -/
def emptyDb : DbState := ⟨[], [], []⟩

/-- Lookup in an association list by key. -/
def lookupA {α : Type} (k : String) : List (String × α) → Option α
  | [] => none
  | (k2, v) :: t => if k2 = k then some v else lookupA k t

/-- Remove every pair with the given key. -/
def removeA {α : Type} (k : String) (m : List (String × α)) : List (String × α) :=
  m.filter (fun p => p.1 != k)

/-- Insert or replace the pair with the given key (the ON CONFLICT DO
    UPDATE upsert; the position of the row is not significant since
    ordering is not modelled). -/
def upsertA {α : Type} (k : String) (v : α) (m : List (String × α)) : List (String × α) :=
  removeA k m ++ [(k, v)]

/-- Errors observable through the HTTP layer: notFound stands for an
    HTTP 404, invalidTableName for the 400 of the POST delete
    endpoint, serverError for an HTTPException 500 or an unhandled
    storage exception propagating out of a handler. -/
inductive ApiError : Type
  | notFound : ApiError
  | invalidTableName : ApiError
  | serverError : String → ApiError
deriving DecidableEq

deriving instance DecidableEq for Except

/-- The column list of the dataset tables, in the order used by both
    the COPY FROM column list and the download SELECT. -/
def copyHeader : List (List Char) :=
  [toL "school_code", toL "school_name", toL "employee_name",
   toL "employee_code", toL "designation"]

/-- Message for a COPY FROM record whose field count differs from the
    five-column target list. -/
def copyFieldCountMsg : String := "COPY: row field count does not match the target column list"

/-- Message for a field overflowing a varchar(50) column. -/
def varcharMsg : String := "value too long for type character varying(50)"

/-- Message for CSV the COPY reader rejects outright. -/
def copyMalformedMsg : String := "COPY: malformed CSV input"

/-- Message for a query against a table that does not exist. -/
def relNotFoundMsg : String := "relation does not exist"

/-- Message for the driver refusing a COPY TO statement handed to the
    plain execute call. -/
def pgCopyToMsg : String := "ProgrammingError: COPY TO cannot be issued through execute"

/-- The boundary filter of upload_csv: filename.lower().endswith of
    ".csv". -/
def endsCsv (fn : String) : Bool :=
  (toL ".csv").isSuffixOf (fn.data.map lowerCh)

/-- The state committed by one successful single-file upload: the
    target table created or truncated and filled with the data rows,
    and the registry row upserted with the filename and row count. -/
def uploadedState (s : DbState) (filename : String)
    (rows : List (List (List Char))) : DbState :=
  { s with
    tables := upsertA (safe_table_name filename) rows s.tables,
    registry := upsertA (safe_table_name filename)
      ⟨filename, rows.length⟩ s.registry }

/-- One file of upload_csv, inside its transaction: derive the table
    name, create or truncate the table, COPY the decoded text with
    HEADER (first record skipped), enforce the five-column list and
    the varchar(50) widths of school_code and employee_code, count the
    rows, upsert the registry row, and commit.  Any load error rolls
    the whole transaction back, which in this pure model is simply an
    error result leaving the caller's state in force. -/
def uploadOne (s : DbState) (filename : String) (content : List Char) :
    Except ApiError DbState :=
  match parseRecords content with
  | none => .error (.serverError copyMalformedMsg)
  | some recs =>
    let rows := recs.tail
    if rows.any (fun r => r.length != 5) then
      .error (.serverError copyFieldCountMsg)
    else if rows.any (fun r =>
        decide (50 < (r.getD 0 []).length) || decide (50 < (r.getD 3 []).length)) then
      .error (.serverError varcharMsg)
    else .ok (uploadedState s filename rows)

/-- The POST /upload-csv handler: process the files in order on one
    connection, skipping names that do not end in ".csv", committing
    after each file; the first failing file rolls back and aborts the
    request, leaving the previously committed files in place.  Returns
    the final committed state and the error that aborted the loop, if
    any. -/
def uploadFiles : DbState → List (String × List Char) → DbState × Option ApiError
  | s, [] => (s, none)
  | s, (fn, c) :: rest =>
    if endsCsv fn then
      match uploadOne s fn c with
      | .ok s2 => uploadFiles s2 rest
      | .error e => (s, some e)
    else uploadFiles s rest

/-- The GET /datasets listing: one tuple per dataset_registry row
    (ordering by uploaded_at is not modelled). -/
def listDatasets (s : DbState) : List (String × String × Nat) :=
  s.registry.map (fun p => (p.1, p.2.original_filename, p.2.row_count))

/-- The DELETE /datasets handler: re-derive the name through
    safe_table_name, DROP TABLE IF EXISTS, delete the registry row,
    commit, and report success unconditionally. -/
def deleteDataset (s : DbState) (t : String) : Except ApiError DbState :=
  let table := safe_table_name t
  .ok { s with tables := removeA table s.tables, registry := removeA table s.registry }

/-- The POST /datasets/delete handler: validate the raw name with
    isidentifier, DROP TABLE IF EXISTS the quoted name, and delete the
    matching row of datasets_meta; dataset_registry is not touched. -/
def postDeleteDataset (s : DbState) (t : String) : Except ApiError DbState :=
  if pyIsIdentifier t.data then
    .ok { s with tables := removeA t s.tables, meta := s.meta.filter (fun n => n != t) }
  else .error .invalidTableName

/-- The first GET /download handler, the one the router dispatches to:
    it re-derives the name through safe_table_name and hands
    COPY (SELECT ...) TO STDOUT WITH CSV HEADER to the cursor's plain
    execute call.  When the table is missing the server reports an
    undefined-relation error; when it exists the driver itself refuses
    to run COPY TO through execute.  The handler catches nothing, so
    every download fails with an unhandled storage error (HTTP 500)
    and never produces a response body.  (A second handler for the
    same route exists further down the source file but is never
    reached, since the first registered route wins.) -/
def downloadTable (s : DbState) (t : String) : Except ApiError (List Char) :=
  let table := safe_table_name t
  match lookupA table s.tables with
  | none => .error (.serverError relNotFoundMsg)
  | some _ => .error (.serverError pgCopyToMsg)

/-- Decoding of the uploaded bytes as the source performs it: the file
    is reopened with encoding latin1, which maps every byte to the
    character of the same code point and can never fail. -/
def latin1Decode (bs : List (Fin 256)) : List Char :=
  bs.map (fun b => Char.ofNat b.val)

/-- A single-file upload from raw bytes: latin1 decoding followed by
    the transactional load. -/
def uploadOneBytes (s : DbState) (filename : String) (bs : List (Fin 256)) :
    Except ApiError DbState :=
  uploadOne s filename (latin1Decode bs)

/-- Modelled from the spec: the per-field trim of surrounding
    whitespace that the BatchLoader contract prescribes; no such step
    exists in src/backend/main.py. -/
def specTrim (l : List Char) : List Char :=
  ((l.dropWhile (fun c => c == ' ' || c == '\t')).reverse.dropWhile
    (fun c => c == ' ' || c == '\t')).reverse

/-- Modelled from the spec: the column set of the registered teacher
    SchemaDefinition; the spec names a closed set of definitions but
    spells out only this one, and no schema registry exists in the
    source. -/
def specTeacherColumns : List (List Char) :=
  [toL "school_code", toL "school_name", toL "employee_name",
   toL "employee_code", toL "designation"]

/-- Modelled from the spec: a header set is recognized when the full
    column set of some registered definition is contained in it. -/
def specSchemaRecognizes (hdr : List (List Char)) : Bool :=
  specTeacherColumns.all (fun col => hdr.contains col)

/-- The registry-table invariant of the spec: a dataset_registry row
    exists exactly for the table names whose table exists. -/
def registryMatchesTables (s : DbState) : Prop :=
  ∀ n : String, (lookupA n s.registry).isSome = (lookupA n s.tables).isSome

/-- A five-field data row r1,r2,r3,r4,r5 used by concrete scenarios. -/
def rRow : List (List Char) := [toL "r1", toL "r2", toL "r3", toL "r4", toL "r5"]

/-- Scenario: state after uploading a.csv with one data row into the
    empty database. -/
def c2s1 : DbState :=
  ⟨[("data_a", [rRow])], [("data_a", ⟨"a.csv", 1⟩)], []⟩

/-- Scenario: state after then invoking POST /datasets/delete on
    data_a: the table is dropped, dataset_registry is untouched. -/
def c2s2 : DbState :=
  ⟨[], [("data_a", ⟨"a.csv", 1⟩)], []⟩

/-- Scenario: header record of six fields. -/
def c1hdr : List (List Char) :=
  [toL "a", toL "b", toL "c", toL "d", toL "e", toL "f"]

/-- Scenario: data row of five fields 1,2,3,4,5. -/
def numRow : List (List Char) := [toL "1", toL "2", toL "3", toL "4", toL "5"]

/-- Scenario: state after uploading x.csv whose header has six fields
    and whose single data row has five. -/
def c1s : DbState :=
  ⟨[("data_x", [numRow])], [("data_x", ⟨"x.csv", 1⟩)], []⟩

/-- Scenario: data row whose first field carries surrounding
    whitespace. -/
def c3row : List (List Char) :=
  [toL "  x  ", toL "b", toL "c", toL "d", toL "e"]

/-- Scenario: state after uploading t.csv with that row. -/
def c3s : DbState :=
  ⟨[("data_t", [c3row])], [("data_t", ⟨"t.csv", 1⟩)], []⟩

/-- Scenario: state after uploading foo.csv with one data row. -/
def c4s1 : DbState :=
  ⟨[("data_foo", [rRow])], [("data_foo", ⟨"foo.csv", 1⟩)], []⟩

/-- Scenario: state after uploading t.csv whose header a,b,c,d,e
    matches no registered schema. -/
def c8s : DbState :=
  ⟨[("data_t", [numRow])], [("data_t", ⟨"t.csv", 1⟩)], []⟩

/-- Scenario: a well-formed five-column file with one data row. -/
def okCsv : List Char := toL "h1,h2,h3,h4,h5\nr1,r2,r3,r4,r5\n"

/-- Scenario: a five-column file whose single data row has only four
    fields. -/
def badCsv : List Char := toL "h1,h2,h3,h4,h5\nr1,r2,r3,r4\n"

/-- Scenario: state after uploading g.csv with one data row into the
    empty store. -/
def c10s1 : DbState :=
  ⟨[("data_g", [rRow])], [("data_g", ⟨"g.csv", 1⟩)], []⟩

/-! Association-list lemmas. -/

theorem lookupA_eq_none {α : Type} (k : String) (m : List (String × α))
    (h : ∀ p ∈ m, p.1 ≠ k) : lookupA k m = none := by
  induction m with
  | nil => rfl
  | cons p t ih =>
    simp only [lookupA, if_neg (h p (by simp))]
    exact ih (fun q hq => h q (by simp [hq]))

theorem lookupA_append_right {α : Type} (k : String) (l1 l2 : List (String × α))
    (h : ∀ p ∈ l1, p.1 ≠ k) : lookupA k (l1 ++ l2) = lookupA k l2 := by
  induction l1 with
  | nil => rfl
  | cons p t ih =>
    simp only [List.cons_append, lookupA, if_neg (h p (by simp))]
    exact ih (fun q hq => h q (by simp [hq]))

theorem removeA_key_ne {α : Type} (k : String) (m : List (String × α)) :
    ∀ p ∈ removeA k m, p.1 ≠ k := by
  intro p hp
  have := List.of_mem_filter hp
  simpa [bne_iff_ne] using this

theorem lookupA_upsertA_self {α : Type} (k : String) (v : α) (m : List (String × α)) :
    lookupA k (upsertA k v m) = some v := by
  unfold upsertA
  rw [lookupA_append_right k _ _ (removeA_key_ne k m)]
  simp [lookupA]

theorem lookupA_removeA_self {α : Type} (k : String) (m : List (String × α)) :
    lookupA k (removeA k m) = none :=
  lookupA_eq_none k _ (removeA_key_ne k m)

/-! Lemmas on the sanitizer of safe_table_name. -/

theorem mem_collapseRuns_allowed (c : Char) :
    ∀ (b : Bool) (l : List Char), c ∈ collapseRuns b l → allowedCh c = true := by
  intro b l
  induction l generalizing b with
  | nil => intro h; cases h
  | cons d t ih =>
    intro h
    by_cases hd : allowedCh d = true
    · rw [collapseRuns, if_pos hd] at h
      rcases List.mem_cons.1 h with rfl | h2
      · exact hd
      · exact ih false h2
    · rw [collapseRuns, if_neg hd] at h
      by_cases hb : b = true
      · rw [if_pos hb] at h; exact ih true h
      · rw [if_neg hb] at h
        rcases List.mem_cons.1 h with rfl | h2
        · decide
        · exact ih true h2

theorem collapseRuns_fixed (l : List Char) (h : ∀ c ∈ l, allowedCh c = true) :
    collapseRuns false l = l := by
  induction l with
  | nil => rfl
  | cons c t ih =>
    rw [collapseRuns, if_pos (h c (by simp)), ih (fun d hd => h d (by simp [hd]))]

theorem lowerCh_fixed (c : Char) (h : allowedCh c = true) : lowerCh c = c := by
  unfold lowerCh
  rw [if_neg]
  simp only [allowedCh, Bool.or_eq_true, Bool.and_eq_true, decide_eq_true_eq,
    beq_iff_eq] at h
  omega

theorem map_lowerCh_fixed (l : List Char) (h : ∀ c ∈ l, allowedCh c = true) :
    l.map lowerCh = l := by
  induction l with
  | nil => rfl
  | cons c t ih =>
    simp [lowerCh_fixed c (h c (by simp)), ih (fun d hd => h d (by simp [hd]))]

theorem stripCsvOcc_cons_ne (c : Char) (l : List Char) (h : c ≠ '.') :
    stripCsvOcc (c :: l) = c :: stripCsvOcc l := by
  rw [stripCsvOcc.eq_def]
  split
  · rename_i heq; injection heq with h1 _; exact absurd h1 h
  · rename_i heq; injection heq with h1 h2; rw [h1, h2]
  · rename_i heq; cases heq

theorem stripCsvOcc_fixed (l : List Char) (h : ∀ c ∈ l, allowedCh c = true) :
    stripCsvOcc l = l := by
  induction l with
  | nil => rfl
  | cons c t ih =>
    have hc := h c (by simp)
    have hdot : c ≠ '.' := by
      intro e; rw [e] at hc; simp [allowedCh] at hc
    rw [stripCsvOcc_cons_ne c t hdot, ih (fun d hd => h d (by simp [hd]))]

theorem sanitizeName_allowed (l : List Char) :
    ∀ c ∈ sanitizeName l, allowedCh c = true := by
  intro c hc
  exact mem_collapseRuns_allowed c false _ hc

theorem sanitizeName_idem (l : List Char) :
    sanitizeName (sanitizeName l) = sanitizeName l := by
  have hall := sanitizeName_allowed l
  show collapseRuns false (stripCsvOcc ((sanitizeName l).map lowerCh)) = sanitizeName l
  rw [map_lowerCh_fixed _ hall, stripCsvOcc_fixed _ hall, collapseRuns_fixed _ hall]

/-! The record reader consumes at least one character per record. -/
theorem csvRecAux_rest_le : ∀ (l : List Char) (qs : QS) (f : List Char)
    (fs r : List (List Char)) (rest : List Char),
    csvRecAux l qs f fs = some (r, rest) → rest.length ≤ l.length := by
  intro l
  induction l with
  | nil =>
    intro qs f fs r rest h
    cases qs
    · simp only [csvRecAux, Option.some.injEq, Prod.mk.injEq] at h
      rw [← h.2]
    · cases h
    · simp only [csvRecAux, Option.some.injEq, Prod.mk.injEq] at h
      rw [← h.2]
  | cons c t ih =>
    intro qs f fs r rest h
    cases qs
    · rw [csvRecAux] at h
      split_ifs at h with h1 h2 h3 h4
      · exact (ih _ _ _ _ _ h).trans (by simp)
      · exact (ih _ _ _ _ _ h).trans (by simp)
      · simp only [Option.some.injEq, Prod.mk.injEq] at h
        rw [← h.2]; simp
      · exact (ih _ _ _ _ _ h).trans (by simp)
    · rw [csvRecAux] at h
      split_ifs at h with h1
      · exact (ih _ _ _ _ _ h).trans (by simp)
      · exact (ih _ _ _ _ _ h).trans (by simp)
    · rw [csvRecAux] at h
      split_ifs at h with h1 h2 h3 h4
      · exact (ih _ _ _ _ _ h).trans (by simp)
      · exact (ih _ _ _ _ _ h).trans (by simp)
      · simp only [Option.some.injEq, Prod.mk.injEq] at h
        rw [← h.2]; simp
      · exact (ih _ _ _ _ _ h).trans (by simp)

theorem csvRecAux_cons_rest_le (c : Char) (t : List Char) (qs : QS) (f : List Char)
    (fs r : List (List Char)) (rest : List Char)
    (h : csvRecAux (c :: t) qs f fs = some (r, rest)) : rest.length ≤ t.length := by
  cases qs
  · rw [csvRecAux] at h
    split_ifs at h with h1 h2 h3 h4
    · exact csvRecAux_rest_le t _ _ _ _ _ h
    · exact csvRecAux_rest_le t _ _ _ _ _ h
    · simp only [Option.some.injEq, Prod.mk.injEq] at h
      rw [← h.2]
    · exact csvRecAux_rest_le t _ _ _ _ _ h
  · rw [csvRecAux] at h
    split_ifs at h with h1
    · exact csvRecAux_rest_le t _ _ _ _ _ h
    · exact csvRecAux_rest_le t _ _ _ _ _ h
  · rw [csvRecAux] at h
    split_ifs at h with h1 h2 h3 h4
    · exact csvRecAux_rest_le t _ _ _ _ _ h
    · exact csvRecAux_rest_le t _ _ _ _ _ h
    · simp only [Option.some.injEq, Prod.mk.injEq] at h
      rw [← h.2]
    · exact csvRecAux_rest_le t _ _ _ _ _ h

theorem parseRecordsFuel_fuel_free_aux : ∀ (n : Nat) (l : List Char), l.length ≤ n →
    ∀ f1 f2 : Nat, l.length ≤ f1 → l.length ≤ f2 →
      parseRecordsFuel f1 l = parseRecordsFuel f2 l := by
  intro n
  induction n with
  | zero =>
    intro l hl f1 f2 _ _
    have : l = [] := List.length_eq_zero.1 (Nat.le_zero.1 hl)
    rw [this]
    simp [parseRecordsFuel]
  | succ m ih =>
    intro l hl f1 f2 h1 h2
    cases l with
    | nil => simp [parseRecordsFuel]
    | cons c t =>
      have hlen : (c :: t).length = t.length + 1 := by simp
      obtain ⟨a, rfl⟩ : ∃ a, f1 = a + 1 := ⟨f1 - 1, by omega⟩
      obtain ⟨b, rfl⟩ : ∃ b, f2 = b + 1 := ⟨f2 - 1, by omega⟩
      simp only [parseRecordsFuel]
      cases hc : csvRecAux (c :: t) QS.plain [] [] with
      | none => rfl
      | some pr =>
        obtain ⟨r, rest⟩ := pr
        have hle := csvRecAux_cons_rest_le c t _ _ _ _ _ hc
        have heq := ih rest (by omega) a b (by omega) (by omega)
        simp [heq]

/-- Fuel equal to the input length is always enough: any larger fuel
    reads the same records. -/
theorem parseRecordsFuel_fuel_free (l : List Char) (f : Nat) (hf : l.length ≤ f) :
    parseRecordsFuel f l = parseRecords l :=
  parseRecordsFuel_fuel_free_aux l.length l le_rfl f l.length hf le_rfl

/-! Evaluation helpers for the upload transaction. -/

theorem uploadOne_eq (s : DbState) (fn : String) (c : List Char)
    (recs : List (List (List Char))) (hp : parseRecords c = some recs) :
    uploadOne s fn c =
      (if recs.tail.any (fun r => r.length != 5) then
        .error (.serverError copyFieldCountMsg)
      else if recs.tail.any (fun r =>
          decide (50 < (r.getD 0 []).length) || decide (50 < (r.getD 3 []).length)) then
        .error (.serverError varcharMsg)
      else .ok (uploadedState s fn recs.tail)) := by
  unfold uploadOne
  rw [hp]

theorem uploadOne_none (s : DbState) (fn : String) (c : List Char)
    (hp : parseRecords c = none) :
    uploadOne s fn c = .error (.serverError copyMalformedMsg) := by
  unfold uploadOne
  rw [hp]

theorem identCh_of_allowed (c : Char) (h : allowedCh c = true) : identCh c = true := by
  simp only [allowedCh, identCh, identStartCh, Bool.or_eq_true, Bool.and_eq_true,
    decide_eq_true_eq, beq_iff_eq] at h ⊢
  omega

/-! Claim theorems. -/

/-- C6 counterexample: the name-normalization function of the code,
    safe_table_name, is not idempotent — it prepends the fixed prefix
    on every application, so applying it twice to the hint x yields
    data_data_x, not data_x. -/
theorem c6_not_idempotent_counterexample :
    safe_table_name (safe_table_name "x") ≠ safe_table_name "x" := by decide

/-- C6 amended: the sanitization body of safe_table_name (lowercase,
    strip ".csv", collapse runs outside the allowed class to one
    underscore) is idempotent; only the unconditional data_ prefix
    breaks idempotence of the full function. -/
theorem c6_sanitizer_idempotent :
    ∀ l : List Char, sanitizeName (sanitizeName l) = sanitizeName l :=
  sanitizeName_idem

/-- C5 counterexample: name validation is not enforced in exactly one
    place — on the same request string the DELETE endpoint silently
    sanitizes through safe_table_name and reports success, while the
    POST delete endpoint applies a different gate (isidentifier) and
    rejects the request, so two distinct per-endpoint checks exist. -/
theorem c5_two_gates_counterexample :
    deleteDataset emptyDb "a-b" = .ok emptyDb
    ∧ safe_table_name "a-b" = "data_a_b"
    ∧ postDeleteDataset emptyDb "a-b" = .error .invalidTableName := by
  exact ⟨by decide, by decide, by decide⟩

/-- C5 amended: every name a handler interpolates does satisfy the
    strict identifier grammar — safe_table_name outputs always do, and
    the POST delete endpoint interpolates only names passing its own
    isidentifier gate, rejecting all others — but the enforcement is
    implemented twice with different semantics, not in one place. -/
theorem c5_grammar_enforced :
    (∀ s : String, isStrictIdent (safe_table_name s).data = true)
    ∧ (∀ (st : DbState) (t : String),
        postDeleteDataset st t = .error .invalidTableName ↔ pyIsIdentifier t.data = false) := by
  constructor
  · intro s
    show isStrictIdent (toL "data_" ++ sanitizeName s.data) = true
    have hd : toL "data_" = 'd' :: toL "ata_" := rfl
    rw [hd, List.cons_append, isStrictIdent, Bool.and_eq_true]
    refine ⟨by decide, ?_⟩
    rw [List.all_append, Bool.and_eq_true]
    refine ⟨by decide, ?_⟩
    exact List.all_eq_true.2 fun c hc => identCh_of_allowed c (sanitizeName_allowed _ c hc)
  · intro st t
    unfold postDeleteDataset
    by_cases hp : pyIsIdentifier t.data = true
    · rw [if_pos hp]
      simp [hp]
    · rw [if_neg hp]
      simp only [Bool.not_eq_true] at hp
      simp [hp]

/-- C9 counterexample: deleting a dataset that does not exist is
    reported as success, not NotFoundError — the handler issues DROP
    TABLE IF EXISTS and an unconditional registry delete and then
    returns its success message. -/
theorem c9_delete_missing_reports_success :
    deleteDataset emptyDb "ghost" = .ok emptyDb
    ∧ lookupA (safe_table_name "ghost") emptyDb.tables = none
    ∧ lookupA (safe_table_name "ghost") emptyDb.registry = none := by
  exact ⟨by decide, rfl, rfl⟩

/-- C9 amended: the DELETE endpoint reports success for every table
    name whether or not the dataset exists, and the POST delete
    endpoint fails only with the invalid-name error; neither ever
    returns NotFoundError. -/
theorem c9_delete_never_not_found :
    (∀ (s : DbState) (t : String), ∃ s2, deleteDataset s t = .ok s2)
    ∧ (∀ (s : DbState) (t : String), postDeleteDataset s t ≠ .error .notFound) := by
  constructor
  · intro s t
    exact ⟨_, rfl⟩
  · intro s t h
    unfold postDeleteDataset at h
    by_cases hp : pyIsIdentifier t.data = true
    · rw [if_pos hp] at h
      simp at h
    · rw [if_neg hp] at h
      simp at h

/-- C7 counterexample: empty input does not fail with a DecodingError;
    latin1 decodes it to the empty text and the whole upload succeeds,
    committing an empty table and a registry row with row_count zero. -/
theorem c7_empty_input_uploads :
    latin1Decode [] = []
    ∧ uploadOneBytes emptyDb "a.csv" [] =
        .ok ⟨[("data_a", [])], [("data_a", ⟨"a.csv", 0⟩)], []⟩ := by
  exact ⟨rfl, by decide⟩

/-- C7 amended: decoding is the single fixed latin1 strategy, which
    is total and (being a function of the bytes) deterministic; an
    upload from bytes therefore either succeeds or fails with a load
    error, never with a decoding failure. -/
theorem c7_decoding_total :
    ∀ (s : DbState) (fn : String) (bs : List (Fin 256)),
      (∃ s2, uploadOneBytes s fn bs = .ok s2)
      ∨ (∃ m, uploadOneBytes s fn bs = .error (.serverError m)) := by
  intro s fn bs
  rcases hp : parseRecords (latin1Decode bs) with _ | recs
  · right
    exact ⟨copyMalformedMsg, uploadOne_none s fn _ hp⟩
  · rw [show uploadOneBytes s fn bs = uploadOne s fn (latin1Decode bs) from rfl,
      uploadOne_eq s fn _ recs hp]
    by_cases h1 : recs.tail.any (fun r => r.length != 5) = true
    · right
      exact ⟨copyFieldCountMsg, by rw [if_pos h1]⟩
    · by_cases h2 : recs.tail.any (fun r =>
          decide (50 < (r.getD 0 []).length) || decide (50 < (r.getD 3 []).length)) = true
      · right
        refine ⟨varcharMsg, ?_⟩
        rw [if_neg h1, if_pos h2]
      · left
        refine ⟨uploadedState s fn recs.tail, ?_⟩
        rw [if_neg h1, if_neg h2]

/-- C2: after uploading a.csv (one data row) into the empty store,
    the POST delete endpoint invoked on data_a drops the table but
    deletes from datasets_meta instead of dataset_registry, leaving a
    dataset_registry row whose table no longer exists — the
    registry-iff-table invariant is violated by a completed
    operation. -/
theorem c2_post_delete_orphans_registry :
    uploadOne emptyDb "a.csv" (toL "h1,h2,h3,h4,h5\nr1,r2,r3,r4,r5\n") = .ok c2s1
    ∧ postDeleteDataset c2s1 "data_a" = .ok c2s2
    ∧ lookupA "data_a" c2s2.registry = some ⟨"a.csv", 1⟩
    ∧ lookupA "data_a" c2s2.tables = none
    ∧ ¬ registryMatchesTables c2s2 := by
  refine ⟨by decide, by decide, by decide, by decide, fun h => absurd (h "data_a") (by decide)⟩

/-- C8 counterexample: a file whose header a,b,c,d,e matches no
    registered schema uploads successfully and mutates storage — the
    code performs no schema detection, so no UnrecognizedSchemaError
    is possible. -/
theorem c8_unrecognized_header_uploads :
    specSchemaRecognizes [toL "a", toL "b", toL "c", toL "d", toL "e"] = false
    ∧ uploadOne emptyDb "t.csv" (toL "a,b,c,d,e\n1,2,3,4,5\n") = .ok c8s
    ∧ lookupA "data_t" c8s.tables = some [numRow]
    ∧ lookupA "data_t" c8s.registry = some ⟨"t.csv", 1⟩ := by
  refine ⟨by decide, by decide, by decide, by decide⟩

/-- C8 amended: the upload ignores the header record entirely (COPY
    with HEADER skips it unvalidated): two files with the same data
    rows but arbitrary different headers produce identical outcomes. -/
theorem c8_header_ignored (s : DbState) (fn : String) (c1 c2 : List Char)
    (h1 h2 : List (List Char)) (rows : List (List (List Char)))
    (hp1 : parseRecords c1 = some (h1 :: rows))
    (hp2 : parseRecords c2 = some (h2 :: rows)) :
    uploadOne s fn c1 = uploadOne s fn c2 := by
  rw [uploadOne_eq s fn c1 _ hp1, uploadOne_eq s fn c2 _ hp2]
  simp only [List.tail_cons]

/-- C8 witness: the recognized teacher header and a garbage header
    over the same single data row give the same upload result. -/
theorem c8_header_ignored_witness :
    uploadOne emptyDb "w.csv"
        (toL "school_code,school_name,employee_name,employee_code,designation\n1,2,3,4,5\n")
      = uploadOne emptyDb "w.csv" (toL "x1,x2,x3,x4,x5\n1,2,3,4,5\n") :=
  c8_header_ignored emptyDb "w.csv" _ _ copyHeader
    [toL "x1", toL "x2", toL "x3", toL "x4", toL "x5"] [numRow] (by decide) (by decide)

/-- C1 counterexample: a file whose six-field header differs from the
    five-field data row does not fail — COPY skips the header without
    validating it, the row matches the five-column list, and the
    upload commits the row and the registry entry. -/
theorem c1_header_count_counterexample :
    parseRecords (toL "a,b,c,d,e,f\n1,2,3,4,5\n") = some (c1hdr :: [numRow])
    ∧ c1hdr.length = 6
    ∧ numRow.length = 5
    ∧ uploadFiles emptyDb [("x.csv", toL "a,b,c,d,e,f\n1,2,3,4,5\n")] = (c1s, none)
    ∧ lookupA "data_x" c1s.tables = some [numRow]
    ∧ lookupA "data_x" c1s.registry = some ⟨"x.csv", 1⟩ := by
  refine ⟨by decide, by decide, by decide, by decide, by decide, by decide⟩

/-- C1 amended: a single-file upload in which some data row K has a
    field count different from the five-column target list fails, and
    the request leaves the state exactly as it was — table creation,
    truncate, load and registry upsert are rolled back as one unit. -/
theorem c1_malformed_row_rolls_back (s : DbState) (fn : String) (c : List Char)
    (hdr : List (List Char)) (rows : List (List (List Char))) (K : Nat)
    (hcsv : endsCsv fn = true)
    (hp : parseRecords c = some (hdr :: rows))
    (hK : K < rows.length)
    (hbad : (rows.getD K []).length ≠ 5) :
    uploadFiles s [(fn, c)] = (s, some (.serverError copyFieldCountMsg)) := by
  have hmem : rows.getD K [] ∈ rows := by
    rw [List.getD_eq_getElem rows [] hK]
    exact List.getElem_mem hK
  have hany : rows.any (fun r => r.length != 5) = true :=
    List.any_eq_true.2 ⟨_, hmem, by simpa using hbad⟩
  have hup : uploadOne s fn c = .error (.serverError copyFieldCountMsg) := by
    rw [uploadOne_eq s fn c _ hp]
    simp only [List.tail_cons]
    rw [if_pos hany]
  simp [uploadFiles, hcsv, hup]

/-- C1 witness: a five-field header with a four-field data row K = 0
    rolls the upload back to the untouched empty state. -/
theorem c1_malformed_row_witness :
    uploadFiles emptyDb [("k.csv", toL "h1,h2,h3,h4,h5\nr1,r2,r3,r4\n")]
      = (emptyDb, some (.serverError copyFieldCountMsg)) :=
  c1_malformed_row_rolls_back emptyDb "k.csv" _
    [toL "h1", toL "h2", toL "h3", toL "h4", toL "h5"]
    [[toL "r1", toL "r2", toL "r3", toL "r4"]] 0
    (by decide) (by decide) (by decide) (by decide)

/-- C3 counterexample: the round trip does not exist.  A well-formed
    upload stores its data row verbatim (here with its surrounding
    whitespace, no trim applied), but downloading the table yields no
    CSV document at all: the handler passes COPY ... TO STDOUT to the
    driver's plain execute call, which the driver refuses, so the
    request fails with an unhandled storage error instead of returning
    the N data rows the claim describes. -/
theorem c3_download_never_yields_data :
    uploadOne emptyDb "t.csv" (toL "h1,h2,h3,h4,h5\n  x  ,b,c,d,e\n") = .ok c3s
    ∧ lookupA "data_t" c3s.tables = some [c3row]
    ∧ c3row.getD 0 [] = toL "  x  "
    ∧ specTrim (toL "  x  ") = toL "x"
    ∧ downloadTable c3s "t" = .error (.serverError pgCopyToMsg) := by
  refine ⟨by decide, by decide, by decide, by decide, by decide⟩

/-- C3 amended: uploading a well-formed file with N data rows stores
    exactly those rows with per-column values preserved verbatim (no
    trim or byte-clamp policy is applied), but downloading never
    yields them: the active download handler issues COPY ... TO STDOUT
    through the driver's plain execute call, which the driver rejects,
    so every download of the uploaded table fails with an unhandled
    storage error and no CSV document is produced. -/
theorem c3_upload_stores_download_fails (s : DbState) (fname : String) (c : List Char)
    (hdr : List (List Char)) (rows : List (List (List Char)))
    (hp : parseRecords c = some (hdr :: rows))
    (h5 : ∀ r ∈ rows, r.length = 5)
    (hw : ∀ r ∈ rows, (r.getD 0 []).length ≤ 50 ∧ (r.getD 3 []).length ≤ 50) :
    uploadOne s fname c = .ok (uploadedState s fname rows)
    ∧ lookupA (safe_table_name fname) (uploadedState s fname rows).tables = some rows
    ∧ downloadTable (uploadedState s fname rows) fname
        = .error (.serverError pgCopyToMsg) := by
  have ha1 : rows.any (fun r => r.length != 5) = false := by
    rw [List.any_eq_false]
    intro r hr
    simpa using h5 r hr
  have ha2 : rows.any (fun r =>
      decide (50 < (r.getD 0 []).length) || decide (50 < (r.getD 3 []).length)) = false := by
    rw [List.any_eq_false]
    intro r hr
    simp only [Bool.or_eq_true, decide_eq_true_eq, not_or, Nat.not_lt]
    exact ⟨(hw r hr).1, (hw r hr).2⟩
  have hl : lookupA (safe_table_name fname) (uploadedState s fname rows).tables
      = some rows := lookupA_upsertA_self _ _ _
  refine ⟨?_, hl, ?_⟩
  · rw [uploadOne_eq s fname c _ hp]
    simp only [List.tail_cons]
    rw [if_neg (by rw [ha1]; exact Bool.false_ne_true),
      if_neg (by rw [ha2]; exact Bool.false_ne_true)]
  · simp [downloadTable, hl]

/-- C3 witness: the stored-rows and failing-download facts
    instantiated on a one-row upload. -/
theorem c3_upload_stores_download_fails_witness :
    uploadOne emptyDb "rt.csv" okCsv = .ok (uploadedState emptyDb "rt.csv" [rRow])
    ∧ lookupA (safe_table_name "rt.csv")
        (uploadedState emptyDb "rt.csv" [rRow]).tables = some [rRow]
    ∧ downloadTable (uploadedState emptyDb "rt.csv" [rRow]) "rt.csv"
        = .error (.serverError pgCopyToMsg) :=
  c3_upload_stores_download_fails emptyDb "rt.csv" okCsv
    [toL "h1", toL "h2", toL "h3", toL "h4", toL "h5"] [rRow]
    (by decide) (by decide) (by decide)

/-- C4 counterexample: after uploading foo.csv the produced table is
    named data_foo, but invoking the delete endpoint with that very
    name re-derives data_data_foo, drops nothing, reports success, and
    the dataset is still present and still listed. -/
theorem c4_delete_by_table_name_counterexample :
    uploadOne emptyDb "foo.csv" (toL "h1,h2,h3,h4,h5\nr1,r2,r3,r4,r5\n") = .ok c4s1
    ∧ safe_table_name "data_foo" = "data_data_foo"
    ∧ deleteDataset c4s1 "data_foo" = .ok c4s1
    ∧ lookupA "data_foo" c4s1.tables = some [rRow]
    ∧ ("data_foo", "foo.csv", 1) ∈ listDatasets c4s1 := by
  refine ⟨by decide, by decide, by decide, by decide, by decide⟩

/-- C4 amended: deleting with the same hint the upload used (for which
    safe_table_name re-derives the same table name) does remove the
    table and its registry row, and the listing no longer contains it;
    but a subsequent download of the deleted dataset fails with an
    unhandled storage error, not NotFoundError, since the active
    download handler has no missing-table handling. -/
theorem c4_delete_by_hint (s s1 : DbState) (fname : String) (c : List Char)
    (_h : uploadOne s fname c = .ok s1) :
    deleteDataset s1 fname = .ok
      { s1 with tables := removeA (safe_table_name fname) s1.tables,
                registry := removeA (safe_table_name fname) s1.registry }
    ∧ (∀ e ∈ listDatasets
          { s1 with tables := removeA (safe_table_name fname) s1.tables,
                    registry := removeA (safe_table_name fname) s1.registry },
        e.1 ≠ safe_table_name fname)
    ∧ downloadTable
          { s1 with tables := removeA (safe_table_name fname) s1.tables,
                    registry := removeA (safe_table_name fname) s1.registry } fname
        = .error (.serverError relNotFoundMsg) := by
  refine ⟨rfl, ?_, ?_⟩
  · intro e he
    simp only [listDatasets, List.mem_map] at he
    obtain ⟨p, hp2, rfl⟩ := he
    exact removeA_key_ne _ _ p hp2
  · simp [downloadTable, lookupA_removeA_self]

/-- C4 witness: the scenario instantiated after uploading foo.csv. -/
theorem c4_delete_by_hint_witness :
    deleteDataset c4s1 "foo.csv" = .ok
      { c4s1 with tables := removeA (safe_table_name "foo.csv") c4s1.tables,
                  registry := removeA (safe_table_name "foo.csv") c4s1.registry }
    ∧ (∀ e ∈ listDatasets
          { c4s1 with tables := removeA (safe_table_name "foo.csv") c4s1.tables,
                      registry := removeA (safe_table_name "foo.csv") c4s1.registry },
        e.1 ≠ safe_table_name "foo.csv")
    ∧ downloadTable
          { c4s1 with tables := removeA (safe_table_name "foo.csv") c4s1.tables,
                      registry := removeA (safe_table_name "foo.csv") c4s1.registry } "foo.csv"
        = .error (.serverError relNotFoundMsg) :=
  c4_delete_by_hint emptyDb c4s1 "foo.csv"
    (toL "h1,h2,h3,h4,h5\nr1,r2,r3,r4,r5\n") (by decide)

/-- C10: the multi-file upload commits file by file: if every file of
    a prefix loads, a failing file aborts the request with that error
    while the committed prefix remains and later files are never
    processed; and a file whose name does not end in ".csv" is skipped
    with no effect on the outcome. -/
theorem c10_per_file_commit :
    (∀ (s s1 : DbState) (pre post : List (String × List Char)) (fn : String)
        (c : List Char) (e : ApiError),
      uploadFiles s pre = (s1, none) → endsCsv fn = true →
      uploadOne s1 fn c = .error e →
      uploadFiles s (pre ++ (fn, c) :: post) = (s1, some e))
    ∧ (∀ (s : DbState) (pre post : List (String × List Char)) (fn : String) (c : List Char),
      endsCsv fn = false →
      uploadFiles s (pre ++ (fn, c) :: post) = uploadFiles s (pre ++ post)) := by
  constructor
  · intro s s1 pre post fn c e h1 h2 h3
    revert h1
    induction pre generalizing s with
    | nil =>
      intro h1
      simp only [uploadFiles] at h1
      injection h1 with ha hb
      subst ha
      simp [uploadFiles, h2, h3]
    | cons p t ih =>
      obtain ⟨pfn, pc⟩ := p
      intro h1
      simp only [List.cons_append, uploadFiles] at h1 ⊢
      by_cases hc : endsCsv pfn = true
      · rw [if_pos hc] at h1 ⊢
        cases huo : uploadOne s pfn pc with
        | ok s2 =>
          rw [huo] at h1
          exact ih s2 h1
        | error e2 =>
          rw [huo] at h1
          simp at h1
      · rw [if_neg hc] at h1 ⊢
        exact ih s h1
  · intro s pre post fn c hcsv
    induction pre generalizing s with
    | nil =>
      simp only [List.nil_append, uploadFiles]
      rw [if_neg (by simp [hcsv])]
    | cons p t ih =>
      obtain ⟨pfn, pc⟩ := p
      simp only [List.cons_append, uploadFiles]
      by_cases hc : endsCsv pfn = true
      · rw [if_pos hc, if_pos hc]
        cases huo : uploadOne s pfn pc with
        | ok s2 => exact ih s2
        | error e2 => rfl
      · rw [if_neg hc, if_neg hc]
        exact ih s

/-- C10 witness: a good file, then a malformed one, then another good
    one — the first stays committed, the request reports the error of
    the second, the third is never loaded; and a .txt file in the
    middle is skipped without changing the outcome. -/
theorem c10_per_file_commit_witness :
    uploadFiles emptyDb ([("g.csv", okCsv)] ++ ("bad.csv", badCsv) :: [("later.csv", okCsv)])
      = (c10s1, some (.serverError copyFieldCountMsg))
    ∧ uploadFiles emptyDb ([("g.csv", okCsv)] ++ ("notes.txt", okCsv) :: [("later.csv", okCsv)])
      = uploadFiles emptyDb ([("g.csv", okCsv)] ++ [("later.csv", okCsv)]) :=
  ⟨c10_per_file_commit.1 emptyDb c10s1 [("g.csv", okCsv)] [("later.csv", okCsv)]
      "bad.csv" badCsv (.serverError copyFieldCountMsg) (by decide) (by decide) (by decide),
    c10_per_file_commit.2 emptyDb [("g.csv", okCsv)] [("later.csv", okCsv)]
      "notes.txt" okCsv (by decide)⟩
